import Mathlib

/-!
Verification development for the Coppit game engine (`app/models.py`, `app/engine.py`).

The Python source is shallowly embedded: pydantic value classes become Lean
structures, engine functions become executable Lean functions on those
structures.  Python's in-place mutation of a `GameState` is modelled by
returning the updated value; `copy.deepcopy` is the identity on values.
The one place where Python object identity and aliasing are observable —
the merge loop of `resolve_captures`, which holds references into
`state.stacks` while removing elements from it — is modelled explicitly with
an object store (`heap`, indexed by original list position) plus a list of
references (`refs`), so that the stale-index behaviour of the source is
reproduced faithfully.  An uncaught Python exception (IndexError from
`state.stacks[moving_stack_idx]`) is modelled as `none`.

Randomness (`random.randint`) is modelled by passing the drawn value as an
explicit argument; the event-log timestamp (`time.time()`) and display
coordinates (floats, irrelevant to the rules per the spec) are omitted.
-/

namespace Coppit

/-- PlayerColor enum, in source declaration order (used for first-available color assignment). -/
inductive PlayerColor where
  | red | green | blue | yellow
  deriving DecidableEq, Repr

/-- List of all colors in enum order, as `for c in PlayerColor` iterates. -/
def PlayerColor.all : List PlayerColor := [.red, .green, .blue, .yellow]

/-- GamePhase enum from models.py. -/
inductive GamePhase where
  | waiting | roll | selectPiece | selectDirection | move | resolve | gameOver
  deriving DecidableEq, Repr

/-- Direction enum from models.py. -/
inductive Direction where
  | cw | ccw | north | east | south | west
  deriving DecidableEq, Repr

/-- Node identifiers.  The source uses strings (`"outer_12"`, `"box_red"`,
`"cross_..."`); we embed them as a closed inductive so that the string tests
`startswith("outer_")`, `startswith("box_")`, `"cross_" in id` and the
numeric parse `int(id.split("_")[1])` become total pattern matches.
`outer n` carries the ring index printed in the id. -/
inductive NodeId where
  | outer : Nat → NodeId
  | box : PlayerColor → NodeId
  | cross : Nat → NodeId
  deriving DecidableEq, Repr

/-- Embedding of `node_id.startswith("outer_")`. -/
def NodeId.isOuter : NodeId → Bool
  | .outer _ => true
  | _ => false

/-- Embedding of `node_id.startswith("box_")`. -/
def NodeId.isBoxId : NodeId → Bool
  | .box _ => true
  | _ => false

/-- Embedding of `"cross_" in node_id`. -/
def NodeId.isCrossId : NodeId → Bool
  | .cross _ => true
  | _ => false

/-- Embedding of `int(node_id.split("_")[1])` for ring ids; on a non-ring id
the Python expression raises ValueError (no such id occurs on the board). -/
def NodeId.outerNum? : NodeId → Option Nat
  | .outer n => some n
  | _ => none

/-- Node tags used by the board (`"BOX"`, `"SAFE_COLOR"`, `"JUNCTION"`, ...). -/
inductive Tag where
  | normal | boxTag | safeColor | crossTag | junction | center
  deriving DecidableEq, Repr

/-- BoardNode from models.py (display coordinates x, y omitted: floats,
irrelevant to the rules). -/
structure BoardNode where
  neighbors : List NodeId
  tags : List Tag := []
  color : Option PlayerColor := none
  deriving DecidableEq, Repr

/-- Method `BoardNode.is_box`. -/
def BoardNode.is_box (n : BoardNode) : Bool := n.tags.contains Tag.boxTag

/-- Method `BoardNode.is_safe_color`. -/
def BoardNode.is_safe_color (n : BoardNode) : Bool := n.tags.contains Tag.safeColor

/-- Method `BoardNode.is_junction`. -/
def BoardNode.is_junction (n : BoardNode) : Bool := n.tags.contains Tag.junction

/-- Board from models.py: a mapping from node id to BoardNode (dict embedded
as an association list with unique keys; `meta` omitted). -/
structure Board where
  nodes : List (NodeId × BoardNode)
  deriving DecidableEq, Repr

/-- Method `Board.get_node`. -/
def Board.get_node (b : Board) (i : NodeId) : Option BoardNode :=
  b.nodes.lookup i

/-- Method `Board.get_neighbors`. -/
def Board.get_neighbors (b : Board) (i : NodeId) : List NodeId :=
  match b.get_node i with
  | some n => n.neighbors
  | none => []

/-- Hat (piece) from models.py.  The string id `f"{color}_{index}"` is
embedded as the pair of its color and index, preserving distinctness. -/
structure Hat where
  id : PlayerColor × Nat
  color : PlayerColor
  owner : PlayerColor
  deriving DecidableEq, Repr

/-- Stack from models.py: `pieces[0]` is the bottom, the last entry the top. -/
structure Stack where
  node_id : NodeId
  pieces : List Hat := []
  deriving DecidableEq, Repr

/-- Property `Stack.controller`: color of the top hat, `None` when empty. -/
def Stack.controller (s : Stack) : Option PlayerColor :=
  s.pieces.getLast?.map Hat.color

/-- Method `Stack.has_captives`. -/
def Stack.has_captives (s : Stack) : Bool := s.pieces.length > 1

/-- Player from models.py. -/
structure Player where
  id : String
  name : String
  color : PlayerColor
  is_bot : Bool := false
  connected : Bool := true
  box_hats : List Hat := []
  banked_hats : List Hat := []
  deriving DecidableEq, Repr

/-- Property `Player.score`: own-color hats in the box. -/
def Player.score (p : Player) : Nat :=
  (p.box_hats.filter (fun h => h.color = p.color)).length

/-- Property `Player.points`: foreign-color hats banked. -/
def Player.points (p : Player) : Nat :=
  (p.banked_hats.filter (fun h => h.color ≠ p.color)).length

/-- GameConfig from models.py with the source's defaults. -/
structure GameConfig where
  max_players : Nat := 4
  hats_per_player : Nat := 6
  require_6_to_deploy : Bool := false
  extra_roll_on_6 : Bool := true
  capture_on_pass : Bool := false
  safe_by_color : Bool := true
  safe_by_gray : Bool := true
  allow_box_invasion : Bool := false
  auto_bank_on_return : Bool := true
  allow_respawn : Bool := false
  max_turns : Option Nat := none
  allow_backward : Bool := true
  direction_lock : Bool := true
  box_exit_bidirectional : Bool := true
  deriving DecidableEq, Repr

/-- ActionLog from models.py, restricted to the fields the rules observe
(timestamp is wall-clock time, `details`/`result` are free-form dicts). -/
structure ActionLog where
  turn : Nat
  player_id : String
  action_type : String
  deriving DecidableEq, Repr

/-- Winner field of GameState: a single player id or a list for ties. -/
inductive Winner where
  | single : String → Winner
  | multi : List String → Winner
  deriving DecidableEq, Repr

/-- GameState from models.py (dict of players embedded as an insertion-ordered
association list; `created_at`/`random_seed` omitted; the source field
`stacks` is spelled `stacks'` because `stacks` is a reserved word here). -/
structure GameState where
  room_id : String
  config : GameConfig
  board : Board
  players : List (String × Player) := []
  turn_order : List String := []
  current_turn_index : Nat := 0
  phase : GamePhase := .waiting
  dice_value : Option Nat := none
  selected_stack : Option Stack := none
  selected_direction : Option Direction := none
  stacks' : List Stack := []
  logs : List ActionLog := []
  winner : Option Winner := none
  turn_count : Nat := 0
  deriving DecidableEq, Repr

/-- Property `GameState.current_player_id`. -/
def GameState.current_player_id (s : GameState) : Option String :=
  if s.turn_order.isEmpty then none
  else s.turn_order.get? s.current_turn_index

/-- Property `GameState.current_player`. -/
def GameState.current_player (s : GameState) : Option Player :=
  match s.current_player_id with
  | some pid => s.players.lookup pid
  | none => none

/-- Method `GameState.get_all_hats_on_board`. -/
def GameState.get_all_hats_on_board (s : GameState) : List Hat :=
  s.stacks'.flatMap Stack.pieces

/-- Method `GameState.get_colors_on_board` (a Python set; embedded as the
deduplicated list of colors, whose length is the set's size). -/
def GameState.get_colors_on_board (s : GameState) : List PlayerColor :=
  (s.get_all_hats_on_board.map Hat.color).dedup

/-- Method `GameState.add_log` (timestamp omitted, see module comment). -/
def GameState.add_log (s : GameState) (pid : String) (action : String) : GameState :=
  { s with logs := s.logs ++ [⟨s.turn_count, pid, action⟩] }

/-- Helper `create_hat` from models.py. -/
def create_hat (c : PlayerColor) (i : Nat) : Hat :=
  { id := (c, i), color := c, owner := c }

/-- Helper `create_initial_hats` from models.py: hats indexed 1..count. -/
def create_initial_hats (c : PlayerColor) (count : Nat) : List Hat :=
  (List.range count).map (fun i => create_hat c (i + 1))

/-- Python dict assignment `d[k] = v`: replace the value of an existing key in
place, otherwise append the new binding at the end (insertion order). -/
def assoc_set {α β : Type} [DecidableEq α] : List (α × β) → α → β → List (α × β)
  | [], k, v => [(k, v)]
  | (k', v') :: rest, k, v =>
    if k' = k then (k, v) :: rest else (k', v') :: assoc_set rest k v

/-- Python `set.add` on the destination set of `get_legal_destination_nodes`,
embedded as membership-respecting list insertion. -/
def set_add (l : List NodeId) (x : NodeId) : List NodeId :=
  if x ∈ l then l else l ++ [x]

/-- Python `for i, s in enumerate(l): if p(s): ... break` — the index of the
first element satisfying the predicate. -/
def find_idx {α : Type} (p : α → Bool) : List α → Option Nat
  | [] => none
  | a :: l => if p a then some 0 else (find_idx p l).map (· + 1)

/-! Engine functions from `app/engine.py`. -/

/-- Function `init_game`. -/
def init_game (room_id : String) (board : Board) (config : GameConfig) : GameState :=
  { room_id := room_id, config := config, board := board,
    players := [], turn_order := [], stacks' := [], phase := .waiting }

/-- Function `add_player`.  The start-player draw `random.randint(0,
len(turn_order)-1)` taken when the table fills is passed in as `rand`
(reduced modulo the seat count). -/
def add_player (state : GameState) (player_id name : String)
    (is_bot : Bool := false) (rand : Nat := 0) : GameState :=
  if state.players.length ≥ state.config.max_players then state
  else
    let used := state.players.map (fun p => p.2.color)
    let available := PlayerColor.all.filter (fun c => c ∉ used)
    match available with
    | [] => state
    | color :: _ =>
      let hats := create_initial_hats color state.config.hats_per_player
      let player : Player :=
        { id := player_id, name := name, color := color, is_bot := is_bot, box_hats := hats }
      let is_first_player := state.stacks'.isEmpty
      let state :=
        { state with players := assoc_set state.players player_id player,
                     turn_order := state.turn_order ++ [player_id] }
      let box_node_id := NodeId.box color
      let state :=
        match state.board.get_node box_node_id with
        | some _ =>
          { state with stacks' := state.stacks' ++ [{ node_id := box_node_id, pieces := player.box_hats }] }
        | none => state
      if state.players.length = state.config.max_players ∧ state.phase = .waiting then
        { state with current_turn_index := rand % state.turn_order.length, phase := .roll }
      else if is_first_player then { state with phase := .roll }
      else state

/-- Function `roll_dice`.  The drawn value `random.randint(1, 6)` is passed
in as `value`; the source also returns it to the caller. -/
def roll_dice (state : GameState) (value : Nat) : GameState :=
  let state := { state with dice_value := some value }
  state.add_log (state.current_player_id.getD "") "roll"

/-- Function `advance_turn`.  On an empty `turn_order` the source's
`% len(...)` would raise ZeroDivisionError; every caller has players. -/
def advance_turn (state : GameState) : GameState :=
  { state with
    current_turn_index := (state.current_turn_index + 1) % state.turn_order.length,
    turn_count := state.turn_count + 1,
    dice_value := none,
    selected_stack := none,
    selected_direction := none,
    phase := .roll }

/-- Loop body of `get_simple_path`, recursing on the remaining distance. -/
def get_simple_path_go (board : Board) : Nat → NodeId → List NodeId → List NodeId
  | 0, _, path => path
  | n + 1, current, path =>
    match board.get_node current with
    | none => []
    | some node =>
      if node.neighbors.isEmpty then []
      else if node.is_junction then []
      else
        match node.neighbors.head? with
        | none => []
        | some next => get_simple_path_go board n next (path ++ [next])

/-- Function `get_simple_path`. -/
def get_simple_path (board : Board) (start : NodeId) (distance : Nat) : List NodeId :=
  get_simple_path_go board distance start [start]

/-- Function `get_legal_directions`. -/
def get_legal_directions (state : GameState) (stack : Stack) : List Direction :=
  match state.board.get_node stack.node_id with
  | none => []
  | some node =>
    if node.is_box then [.cw, .ccw]
    else if stack.node_id.isOuter then [.cw, .ccw]
    else if stack.node_id.isCrossId then [.north, .east, .south, .west]
    else if node.is_junction then [.cw, .ccw]
    else []

/-- Function `can_move_stack`. -/
def can_move_stack (state : GameState) (stack : Stack) (distance : Nat) : Bool :=
  match state.board.get_node stack.node_id with
  | none => false
  | some node =>
    if stack.node_id.isOuter then true
    else if node.is_junction then true
    else if stack.node_id.isCrossId then true
    else (get_simple_path state.board stack.node_id distance).length > 0

/-- Function `get_legal_stacks`. -/
def get_legal_stacks (state : GameState) (player_id : String) : List Stack :=
  match state.players.lookup player_id, state.dice_value with
  | some player, some dice =>
    let can_deploy :=
      ¬ player.box_hats.isEmpty ∧ (¬ state.config.require_6_to_deploy ∨ dice = 6)
    let box_node_id := NodeId.box player.color
    let legal_box :=
      if can_deploy then
        state.stacks'.filter (fun st => st.node_id = box_node_id ∧ st.pieces.length > 0)
      else []
    let legal_board := state.stacks'.filter (fun st =>
      ¬ st.node_id.isBoxId ∧ st.controller = some player.color ∧
        can_move_stack state st dice)
    legal_box ++ legal_board
  | _, _ => []

/-- Inner recursion `explore_paths` of `get_all_possible_paths`, recursing on
the remaining step count.  On the junction branch the source parses
`int(current.split("_")[1])`; a junction whose id is not of ring form would
make that parse raise ValueError — no such node exists on the board, and the
embedding returns no path there. -/
def explore_paths (board : Board) (direction : Option Direction) :
    Nat → NodeId → List NodeId → List (List NodeId)
  | 0, _, path => [path]
  | remaining + 1, current, path =>
    match board.get_node current with
    | none => []
    | some node =>
      if node.is_junction then
        node.neighbors.flatMap (fun neighbor_id =>
          match board.get_node neighbor_id with
          | none => []
          | some _ =>
            if neighbor_id.isOuter ∧ direction.isSome then
              match current.outerNum?, neighbor_id.outerNum? with
              | some current_num, some neighbor_num =>
                if direction = some .cw then
                  if neighbor_num = (current_num + 1) % 48 then
                    explore_paths board direction remaining neighbor_id (path ++ [neighbor_id])
                  else []
                else
                  if neighbor_num = (current_num + 47) % 48 then
                    explore_paths board direction remaining neighbor_id (path ++ [neighbor_id])
                  else []
              | _, _ => []
            else if neighbor_id.isCrossId then
              explore_paths board direction remaining neighbor_id (path ++ [neighbor_id])
            else [])
      else if current.isOuter ∧ direction.isSome then
        match current.outerNum? with
        | none => []
        | some current_num =>
          let next_num :=
            if direction = some .cw then (current_num + 1) % 48 else (current_num + 47) % 48
          let next_id := NodeId.outer next_num
          match board.get_node next_id with
          | some _ => explore_paths board direction remaining next_id (path ++ [next_id])
          | none => []
      else if current.isCrossId then
        node.neighbors.flatMap (fun neighbor_id =>
          if neighbor_id ∈ path then []
          else
            match board.get_node neighbor_id with
            | some _ => explore_paths board direction remaining neighbor_id (path ++ [neighbor_id])
            | none => [])
      else []

/-- Function `get_all_possible_paths`. -/
def get_all_possible_paths (board : Board) (start : NodeId) (distance : Nat)
    (direction : Option Direction := none) : List (List NodeId) :=
  if distance = 0 then [[start]]
  else explore_paths board direction distance start [start]

/-- Function `select_next_node` (the source's simplified implementation picks
the first unvisited neighbor; the direction argument is unused there). -/
def select_next_node (board : Board) (current : NodeId) (_direction : Direction)
    (visited : List NodeId) : Option NodeId :=
  match board.get_node current with
  | none => none
  | some node => node.neighbors.find? (fun nb => nb ∉ visited)

/-- Ring segment of `calculate_path`: from a ring index, take the given number
of steps clockwise or counter-clockwise, appending `outer_{(n±1) % 48}` ids
without consulting the board (as the source does). -/
def ring_walk (direction : Direction) : Nat → Nat → List NodeId → List NodeId
  | 0, _, path => path
  | n + 1, num, path =>
    let num' := if direction = .cw then (num + 1) % 48 else (num + 47) % 48
    ring_walk direction n num' (path ++ [NodeId.outer num'])

/-- Generic tail loop of `calculate_path` (non-ring start), recursing on the
remaining step count and stopping early when no next node is found. -/
def calculate_path_go (board : Board) (direction : Direction) :
    Nat → NodeId → List NodeId → List NodeId
  | 0, _, path => path
  | n + 1, current, path =>
    match board.get_node current with
    | none => path
    | some _ =>
      match select_next_node board current direction path with
      | none => path
      | some next => calculate_path_go board direction n next (path ++ [next])

/-- Function `calculate_path`. -/
def calculate_path (board : Board) (start : NodeId) (distance : Nat)
    (direction : Option Direction) : List NodeId :=
  if distance = 0 then [start]
  else
    match direction with
    | none => get_simple_path board start distance
    | some dir =>
      match start.outerNum? with
      | some start_num => ring_walk dir distance start_num [start]
      | none => calculate_path_go board dir distance start [start]

/-- Fuel bound for the breadth-first searches: the visited-set guard lets each
node be enqueued at most once per neighbor occurrence, so the number of
dequeue steps is bounded by the total neighbor count of the board plus the
initial entry. -/
def bfs_fuel (board : Board) : Nat :=
  2 + board.nodes.foldl (fun a p => a + p.2.neighbors.length) 0

/-- Queue loop of `calculate_distance_to_box` (BFS with a visited set),
recursing on fuel; `bfs_fuel` makes exhaustion unreachable. -/
def calc_distance_go (board : Board) (target : NodeId) :
    Nat → List (NodeId × Nat) → List NodeId → Option Nat
  | 0, _, _ => none
  | _ + 1, [], _ => none
  | fuel + 1, (current, d) :: rest, visited =>
    if current = target then some d
    else
      match board.get_node current with
      | none => calc_distance_go board target fuel rest visited
      | some node =>
        let step := node.neighbors.foldl
          (fun (acc : List (NodeId × Nat) × List NodeId) nb =>
            if nb ∈ acc.2 then acc else (acc.1 ++ [(nb, d + 1)], acc.2 ++ [nb]))
          (rest, visited)
        calc_distance_go board target fuel step.1 step.2

/-- Function `calculate_distance_to_box`. -/
def calculate_distance_to_box (board : Board) (start_node_id box_node_id : NodeId) :
    Option Nat :=
  calc_distance_go board box_node_id (bfs_fuel board) [(start_node_id, 0)] [start_node_id]

/-- Queue loop of `calculate_path_to_box` (BFS over (node, path) states with a
visited set keyed by (node, distance)), recursing on fuel. -/
def calc_path_go (board : Board) (target : NodeId) (target_distance : Nat) :
    Nat → List (NodeId × List NodeId) → List (NodeId × Nat) → Option (List NodeId)
  | 0, _, _ => none
  | _ + 1, [], _ => none
  | fuel + 1, (current, path) :: rest, visited =>
    let current_distance := path.length - 1
    if current = target ∧ current_distance = target_distance then some path
    else if current_distance < target_distance then
      match board.get_node current with
      | none => calc_path_go board target target_distance fuel rest visited
      | some node =>
        let step := node.neighbors.foldl
          (fun (acc : List (NodeId × List NodeId) × List (NodeId × Nat)) nb =>
            if (nb, current_distance + 1) ∈ acc.2 then acc
            else (acc.1 ++ [(nb, path ++ [nb])], acc.2 ++ [(nb, current_distance + 1)]))
          (rest, visited)
        calc_path_go board target target_distance fuel step.1 step.2
    else calc_path_go board target target_distance fuel rest visited

/-- Function `calculate_path_to_box`. -/
def calculate_path_to_box (board : Board) (start_node_id box_node_id : NodeId)
    (target_distance : Nat) : Option (List NodeId) :=
  calc_path_go board box_node_id target_distance
    ((target_distance + 1) * bfs_fuel board)
    [(start_node_id, [start_node_id])] [(start_node_id, 0)]

/-- Function `find_deployment_node`. -/
def find_deployment_node (board : Board) (color : PlayerColor) : Option NodeId :=
  match board.get_node (NodeId.box color) with
  | some box_node => box_node.neighbors.head?
  | none => none

/-- Function `get_legal_destination_nodes`. -/
def get_legal_destination_nodes (state : GameState) (stack : Stack) : List NodeId :=
  match state.dice_value with
  | none => []
  | some distance =>
    let start_node := stack.node_id
    if start_node.isBoxId then
      match state.current_player with
      | none => []
      | some player =>
        match find_deployment_node state.board player.color with
        | none => []
        | some deploy_node =>
          if distance = 1 then [deploy_node]
          else
            let actual_distance := distance - 1
            [Direction.cw, Direction.ccw].foldl (fun dests dir =>
              (get_all_possible_paths state.board deploy_node actual_distance (some dir)).foldl
                (fun dests path =>
                  match path.getLast? with
                  | some dest => set_add dests dest
                  | none => dests)
                dests)
              []
    else
      let dests₀ : List NodeId := []
      let dests₁ :=
        match stack.controller with
        | some c =>
          let box_node_id := NodeId.box c
          match calculate_distance_to_box state.board start_node box_node_id with
          | some box_distance =>
            if box_distance = distance then set_add dests₀ box_node_id else dests₀
          | none => dests₀
        | none => dests₀
      let directions := get_legal_directions state stack
      if directions.isEmpty then
        let path := get_simple_path state.board start_node distance
        if path.length > 1 then
          match path.getLast? with
          | some dest => set_add dests₁ dest
          | none => dests₁
        else dests₁
      else
        directions.foldl (fun dests dir =>
          (get_all_possible_paths state.board start_node distance (some dir)).foldl
            (fun dests path =>
              if path.length > 1 then
                match path.getLast? with
                | some dest => set_add dests dest
                | none => dests
              else dests)
            dests)
          dests₁

/-- Function `is_safe`. -/
def is_safe (state : GameState) (stack : Stack) (node_id : NodeId) : Bool :=
  match state.board.get_node node_id with
  | none => false
  | some node =>
    if state.config.safe_by_color ∧ node.is_safe_color then
      node.color = stack.controller
    else if node.is_box then true
    else false

/-- Function `deploy_from_box`.  The popped hat and the refreshed reserve
mirror stack are written back before the entry node is looked up, exactly as
in the source (so a missing entry node loses the popped hat).  The `stack`
argument is unused by the source body. -/
def deploy_from_box (state : GameState) (_stack : Stack) (direction : Direction) :
    GameState :=
  match state.current_player_id, state.current_player, state.dice_value with
  | some pid, some player, some dice =>
    match player.box_hats with
    | [] => state
    | hat :: rest_hats =>
      let player' := { player with box_hats := rest_hats }
      let state := { state with players := assoc_set state.players pid player' }
      let box_node_id := NodeId.box player.color
      let state :=
        match find_idx (fun s => s.node_id = box_node_id) state.stacks' with
        | some i =>
          { state with stacks' := state.stacks'.set i { node_id := box_node_id, pieces := player'.box_hats } }
        | none => state
      match find_deployment_node state.board player.color with
      | none => state
      | some entry_node_id =>
        let final_node_id :=
          if dice = 1 then entry_node_id
          else
            let path := calculate_path state.board entry_node_id (dice - 1) (some direction)
            path.getLast?.getD entry_node_id
        let new_stack : Stack := { node_id := final_node_id, pieces := [hat] }
        let state := { state with stacks' := state.stacks' ++ [new_stack] }
        state.add_log player.id "deploy"
  | _, _, _ => state

/-- Function `move_stack_along_path`: relocate the first stack matching the
source node, controller and piece-id sequence, returning the updated state
and the list position of the moved stack (the source returns a reference to
it); `none` when no stack matched (the source's WARNING branch). -/
def move_stack_along_path (state : GameState) (stack : Stack) (path : List NodeId) :
    GameState × Option Nat :=
  let destination := path.getLast?.getD stack.node_id
  let source_node := stack.node_id
  match find_idx (fun s =>
      s.node_id = source_node ∧ s.controller = stack.controller ∧
      s.pieces.length = stack.pieces.length ∧
      ((s.pieces.zip stack.pieces).all (fun pq => pq.1.id = pq.2.id))) state.stacks' with
  | some i =>
    match state.stacks'.get? i with
    | some st =>
      ({ state with stacks' := state.stacks'.set i { st with node_id := destination } }, some i)
    | none => (state, none)
  | none => (state, none)

/-- Read a stack object through a reference (its position in the original
`state.stacks` list).  All references used below are in range; the default is
never read. -/
def heap_get (heap : List Stack) (r : Nat) : Stack :=
  (heap.get? r).getD { node_id := NodeId.box .red, pieces := [] }

/-- Python `state.stacks.remove(other_stack)`: drop the first reference whose
current object value equals the given object's current value; `none` when no
element matches (the source would raise ValueError). -/
def remove_first_val (heap : List Stack) : List Nat → Stack → Option (List Nat)
  | [], _ => none
  | r :: rest, target =>
    if heap_get heap r = target then some rest
    else
      match remove_first_val heap rest target with
      | some rest' => some (r :: rest')
      | none => none

/-- Merge loop of `resolve_captures` over the pre-collected co-located stacks.
`heap` is the object store indexed by original list position, `refs` the
current contents of `state.stacks` as references into it; `m` is the
`moving_stack_idx` the source computed once and never refreshes, `mr` the
reference held by the `moving_stack` variable itself.  The source's
`state.stacks[moving_stack_idx]` raises IndexError once removals shrink the
list past the stale index: that is the `none` result. -/
def capture_loop (turn : Nat) (pid : String) (m mr : Nat) :
    List Nat → List Stack → List Nat → List ActionLog →
    Option (List Stack × List Nat × List ActionLog)
  | [], heap, refs, logs => some (heap, refs, logs)
  | o :: others, heap, refs, logs =>
    match refs.get? m with
    | none => none
    | some r =>
      let other_val := heap_get heap o
      let target_val := heap_get heap r
      let combined := other_val.pieces ++ target_val.pieces
      let heap' := heap.set r { target_val with pieces := combined }
      let moving_val := heap_get heap' mr
      let other_now := heap_get heap' o
      let act := if other_now.controller ≠ moving_val.controller then "capture" else "merge"
      match remove_first_val heap' refs other_now with
      | none => none
      | some refs' =>
        capture_loop turn pid m mr others heap' refs' (logs ++ [⟨turn, pid, act⟩])

/-- Function `resolve_captures`.  `m` is the position of the moving stack in
`state.stacks` (the source receives the object itself and re-finds this
position by identity, which cannot differ).  Returns the updated state
together with the current value of the moving-stack object, which the source
keeps using by reference afterwards; `none` models an uncaught exception. -/
def resolve_captures (state : GameState) (m : Nat) : Option (GameState × Stack) :=
  match state.stacks'.get? m with
  | none => some (state, { node_id := NodeId.box .red, pieces := [] })
  | some moving_stack =>
    let dest_node_id := moving_stack.node_id
    let refs₀ := List.range state.stacks'.length
    let stacks_at_dest := refs₀.filter (fun i =>
      i ≠ m ∧ (heap_get state.stacks' i).node_id = dest_node_id)
    if stacks_at_dest.isEmpty then some (state, moving_stack)
    else
      let proceed := fun (remaining : List Nat) =>
        match capture_loop state.turn_count (state.current_player_id.getD "") m m
            remaining state.stacks' refs₀ state.logs with
        | none => none
        | some (heap', refs', logs') =>
          some ({ state with stacks' := refs'.map (heap_get heap'), logs := logs' },
            heap_get heap' m)
      match state.board.get_node dest_node_id with
      | some node =>
        if node.is_safe_color then
          if moving_stack.controller = node.color then some (state, moving_stack)
          else
            let protected_stacks := stacks_at_dest.filter (fun i =>
              (heap_get state.stacks' i).controller = node.color)
            if ¬ protected_stacks.isEmpty then
              let remaining := stacks_at_dest.filter (fun i =>
                (heap_get state.stacks' i).controller ≠ node.color)
              if remaining.isEmpty then some (state, moving_stack)
              else proceed remaining
            else proceed stacks_at_dest
        else proceed stacks_at_dest
      | none => proceed stacks_at_dest

/-- Function `resolve_box_return`; `stack` is the moving-stack object's
current value. -/
def resolve_box_return (state : GameState) (stack : Stack) : GameState :=
  match state.board.get_node stack.node_id with
  | none => state
  | some node =>
    if ¬ node.is_box then state
    else
      match state.current_player_id, state.current_player with
      | some pid, some player =>
        if node.color ≠ some player.color then state
        else
          let player' := { player with
            box_hats := player.box_hats ++ stack.pieces,
            banked_hats :=
              player.banked_hats ++ stack.pieces.filter (fun h => h.color ≠ player.color) }
          let state := { state with players := assoc_set state.players pid player' }
          let state := { state with stacks' := state.stacks'.filter (fun s => s ≠ stack) }
          state.add_log player.id "box_return"
      | _, _ => state

/-- Function `determine_winner`.  Python's `max` on the scores of an empty
player dict would raise; with players present `foldl max 0` agrees since
scores are non-negative.  `winners[0] if len(winners) == 1 else winners`
is the `Winner.single`/`Winner.multi` split. -/
def determine_winner (state : GameState) : GameState :=
  let scores := state.players.map (fun p => (p.2.id, p.2.score))
  let max_score := (scores.map Prod.snd).foldl max 0
  let winners := (scores.filter (fun p => p.2 = max_score)).map Prod.fst
  let w : Winner :=
    match winners with
    | [x] => .single x
    | ws => .multi ws
  let state := { state with winner := some w, phase := .gameOver }
  state.add_log "system" "game_over"

/-- Function `check_game_over`.  The `max_turns` guard follows Python
truthiness: `None` and `0` are both falsy. -/
def check_game_over (state : GameState) : GameState :=
  if state.get_colors_on_board.length ≤ 1 then determine_winner state
  else
    match state.config.max_turns with
    | some mt => if mt ≠ 0 ∧ state.turn_count ≥ mt then determine_winner state else state
    | none => state

/-- Python `copy.deepcopy` on a `GameState`: the identity on values. -/
def deepcopy (s : GameState) : GameState := s

/-- Function `apply_move`.  `none` models an uncaught exception escaping the
call (the IndexError of `resolve_captures`); every no-op branch returns the
deep copy of the input, which compares equal to it. -/
def apply_move (state : GameState) (stack : Stack)
    (direction : Option Direction := none) (target_node_id : Option NodeId := none) :
    Option GameState :=
  let new_state := deepcopy state
  match new_state.dice_value with
  | none => some new_state
  | some distance =>
    if stack.node_id.isBoxId then
      let s := deploy_from_box new_state stack (direction.getD .cw)
      some (advance_turn s)
    else
      let path₀ : Option (List NodeId) :=
        match target_node_id with
        | some t =>
          if t.isBoxId then
            calculate_path_to_box new_state.board stack.node_id t distance
          else
            match direction with
            | some _ =>
              (get_all_possible_paths new_state.board stack.node_id distance direction).find?
                (fun p => ¬ p.isEmpty ∧ p.getLast? = some t)
            | none => none
        | none => none
      let path :=
        match path₀ with
        | some p =>
          if p.isEmpty then calculate_path new_state.board stack.node_id distance direction
          else p
        | none => calculate_path new_state.board stack.node_id distance direction
      if path.length < 2 then some new_state
      else
        match move_stack_along_path new_state stack path with
        | (st₁, none) => some st₁
        | (st₁, some i) =>
          match resolve_captures st₁ i with
          | none => none
          | some (st₂, moved_val) =>
            let st₃ := resolve_box_return st₂ moved_val
            let st₄ := check_game_over st₃
            some (advance_turn st₄)

/-! The game board. -/

/-- Entry ring index for each reserve: `box_<color>` is adjacent to
`outer_<entry>`.  The spec's scenario fixes `box_red` adjacent to `outer_0`. -/
def box_entry : PlayerColor → Nat
  | .red => 0
  | .green => 4
  | .blue => 12
  | .yellow => 36

/-- Reserve color attached at a given ring index, if any. -/
def entry_box? (k : Nat) : Option PlayerColor :=
  if k = 0 then some .red
  else if k = 4 then some .green
  else if k = 12 then some .blue
  else if k = 36 then some .yellow
  else none

/-- Cross-arm index attached at a given ring index, if any; these four ring
nodes carry the JUNCTION tag (ring travel may continue, or divert onto the
adjacent CROSS arm). -/
def ring_cross? (k : Nat) : Option Nat :=
  if k = 8 then some 0
  else if k = 20 then some 1
  else if k = 32 then some 2
  else if k = 44 then some 3
  else none

/-- Ring index a cross arm attaches to. -/
def cross_anchor : Nat → Nat
  | 0 => 8
  | 1 => 20
  | 2 => 32
  | _ => 44

/-- Ring node `outer_k` of the modelled board: adjacent to its two ring
neighbors, at an entry index also to the corresponding reserve node, and at
a junction index also to its cross arm (tagged JUNCTION there); `outer_2`
is the same-color-safe node owned by GREEN. -/
def mb_outer_node (k : Nat) : BoardNode :=
  { neighbors :=
      [NodeId.outer ((k + 47) % 48), NodeId.outer ((k + 1) % 48)] ++
        (match entry_box? k with
         | some c => [NodeId.box c]
         | none => []) ++
        (match ring_cross? k with
         | some i => [NodeId.cross i]
         | none => []),
    tags :=
      (if k = 2 then [Tag.safeColor] else []) ++
        (match ring_cross? k with
         | some _ => [Tag.junction]
         | none => []),
    color := if k = 2 then some .green else none }

/-- Reserve node `box_c` of the modelled board. -/
def mb_box_node (c : PlayerColor) : BoardNode :=
  { neighbors := [NodeId.outer (box_entry c)],
    tags := [Tag.boxTag],
    color := some c }

/-- Cross node `cross_i` of the modelled board: the four arms `cross_0` …
`cross_3` each join their JUNCTION ring node to the center `cross_4`, from
which all four arms depart. -/
def mb_cross_node (i : Nat) : BoardNode :=
  if i < 4 then
    { neighbors := [NodeId.outer (cross_anchor i), NodeId.cross 4],
      tags := [Tag.crossTag] }
  else
    { neighbors := [NodeId.cross 0, NodeId.cross 1, NodeId.cross 2, NodeId.cross 3],
      tags := [Tag.crossTag, Tag.center] }

/-- Modelled from the spec: the repository's board data file
`app/data/board_4p_coppit.json` is not under `src/`, so the board is built
from the spec's words — a document of node records `{id, neighbors, tags,
color?}` (§6) describing a ring of 48 outer nodes (the engine's ring walk is
hard-coded modulo 48), four RESERVE/BOX nodes `box_<color>` each adjacent to
its fixed entry node on the ring ("board with reserve `box_red` adjacent to
`outer_0`", §8), a same-color-safe (`SAFE_COLOR`) ring node with an owning
color (§3), here `outer_2` owned by GREEN, and the cross-shaped paths of
§1/§4.1/§9: four JUNCTION ring nodes where travel may divert onto a CROSS
arm, the arms meeting at the cross center. -/
def mboard : Board :=
  { nodes :=
      (List.range 48).map (fun k => (NodeId.outer k, mb_outer_node k)) ++
        [(NodeId.box .red, mb_box_node .red),
         (NodeId.box .green, mb_box_node .green),
         (NodeId.box .blue, mb_box_node .blue),
         (NodeId.box .yellow, mb_box_node .yellow),
         (NodeId.cross 0, mb_cross_node 0),
         (NodeId.cross 1, mb_cross_node 1),
         (NodeId.cross 2, mb_cross_node 2),
         (NodeId.cross 3, mb_cross_node 3),
         (NodeId.cross 4, mb_cross_node 4)] }

/-! Reachability: the states the orchestration layer (`main.py` / `bot.py`)
can produce.  The orchestrator forwards client-parsed stack values, chosen
directions and target nodes directly into the engine, so a step quantifies
freely over those arguments; dice values come from `random.randint(1, 6)`;
`advance_turn` is invoked directly by the orchestrator when no legal move
exists. -/

/-- Reachable game states: `init_game` followed by any sequence of
`add_player`, `roll_dice`, `advance_turn` and successful `apply_move` calls. -/
inductive Reachable : GameState → Prop where
  | initStep : ∀ room board config, Reachable (init_game room board config)
  | addPlayerStep : ∀ s pid name bot rand,
      Reachable s → Reachable (add_player s pid name bot rand)
  | rollStep : ∀ s v, Reachable s → 1 ≤ v → v ≤ 6 → Reachable (roll_dice s v)
  | advanceStep : ∀ s, Reachable s → Reachable (advance_turn s)
  | moveStep : ∀ s stack dir tgt s',
      Reachable s → apply_move s stack dir tgt = some s' → Reachable s'

/-- Total piece count as the conservation property of the spec counts it:
all players' reserves, all players' banked-captive lists, and all on-board
stacks. -/
def spec_total_piece_count (s : GameState) : Nat :=
  (s.players.map (fun p => p.2.box_hats.length)).sum +
    (s.players.map (fun p => p.2.banked_hats.length)).sum +
    (s.stacks'.map (fun st => st.pieces.length)).sum

/-! Concrete game traces on the modelled board, used as inputs below. -/

/-- Hat `red_i`. -/
def red_hat (i : Nat) : Hat := create_hat .red i

/-- Hat `green_i`. -/
def green_hat (i : Nat) : Hat := create_hat .green i

/-- Value of the RED reserve-mirror stack holding the given hats. -/
def red_mirror (l : List Hat) : Stack := { node_id := NodeId.box .red, pieces := l }

/-- Value of the GREEN reserve-mirror stack holding the given hats. -/
def green_mirror (l : List Hat) : Stack := { node_id := NodeId.box .green, pieces := l }

/-- Single-player game, default config: Alice joins as RED (the first join
already moves the phase to ROLL). -/
def solo_add : GameState :=
  add_player (init_game "room" mboard {}) "p1" "Alice"

/-- The single-player state is reachable. -/
theorem solo_add_reachable : Reachable solo_add :=
  Reachable.addPlayerStep _ _ _ _ _ (Reachable.initStep "room" mboard {})

/-- C1 trace: roll 1, then deploy `red_1` (lands on the entry node `outer_0`). -/
def c1_s2 : GameState := roll_dice solo_add 1

/-- State after the deployment. -/
def c1_s3 : GameState :=
  (apply_move c1_s2 (red_mirror (create_initial_hats .red 6)) (some .cw) none).getD c1_s2

/-- Evaluation of the deployment step. -/
theorem c1_s3_eq :
    apply_move c1_s2 (red_mirror (create_initial_hats .red 6)) (some .cw) none = some c1_s3 :=
  rfl

/-- Roll 1 again. -/
def c1_s4 : GameState := roll_dice c1_s3 1

/-- State after moving the lone RED stack from `outer_0` to `outer_1`.  Only
RED pieces are on the board, so this move triggers the win check. -/
def c1_s5 : GameState :=
  (apply_move c1_s4 { node_id := .outer 0, pieces := [red_hat 1] } (some .cw) none).getD c1_s4

/-- Evaluation of the game-ending move. -/
theorem c1_s5_eq :
    apply_move c1_s4 { node_id := .outer 0, pieces := [red_hat 1] } (some .cw) none = some c1_s5 :=
  rfl

/-- The pre-move state of the C1 trace is reachable. -/
theorem c1_s4_reachable : Reachable c1_s4 :=
  Reachable.rollStep _ 1
    (Reachable.moveStep _ _ _ _ _
      (Reachable.rollStep _ 1 solo_add_reachable (by decide) (by decide))
      c1_s3_eq)
    (by decide) (by decide)

/-- C1: in a reachable state where applying the move ends the game (the win
check fires: only RED remains on board, and indeed the winner is recorded),
`apply_move` nevertheless advances the turn — the phase of the resulting
state is ROLL, not GAME_OVER, the dice is cleared and the turn counter is
incremented — because the source calls `advance_turn` unconditionally after
`check_game_over`, overwriting the GAME_OVER phase that `determine_winner`
set. -/
theorem c1_game_over_not_terminal :
    Reachable c1_s4 ∧
    apply_move c1_s4 { node_id := .outer 0, pieces := [red_hat 1] } (some .cw) none
      = some c1_s5 ∧
    c1_s5.winner = some (.single "p1") ∧
    c1_s5.phase = GamePhase.roll ∧
    c1_s5.phase ≠ GamePhase.gameOver ∧
    c1_s5.turn_count = c1_s4.turn_count + 1 ∧
    c1_s5.dice_value = none :=
  ⟨c1_s4_reachable, c1_s5_eq, rfl, rfl, by decide, rfl, rfl⟩

/-- C2: already in the reachable state right after the first player joins,
the total piece count across reserves, banked lists and board stacks is 12,
not `players × piecesPerPlayer = 6`: `add_player` seeds the player's reserve
with 6 hats and additionally places a mirror stack holding the same 6 hats
on the reserve board node. -/
theorem c2_conservation_fails_at_join :
    Reachable solo_add ∧
    solo_add.players.length = 1 ∧
    solo_add.config.hats_per_player = 6 ∧
    spec_total_piece_count solo_add = 12 ∧
    spec_total_piece_count solo_add ≠
      solo_add.players.length * solo_add.config.hats_per_player :=
  ⟨solo_add_reachable, rfl, rfl, by decide, by decide⟩

/-- C8 trace: deploy `red_1` and `red_2` to `outer_0` (dice 1 twice — the
deployment step performs no capture resolution, so the two stacks coexist),
deploy `red_3` to `outer_1` (dice 2), then roll 1. -/
def c8_t2 : GameState :=
  (apply_move (roll_dice solo_add 1) (red_mirror (create_initial_hats .red 6))
    (some .cw) none).getD solo_add

/-- Second deployment. -/
def c8_t4 : GameState :=
  (apply_move (roll_dice c8_t2 1) (red_mirror ((create_initial_hats .red 6).drop 1))
    (some .cw) none).getD c8_t2

/-- Third deployment. -/
def c8_t6 : GameState :=
  (apply_move (roll_dice c8_t4 2) (red_mirror ((create_initial_hats .red 6).drop 2))
    (some .cw) none).getD c8_t4

/-- Ready to move: `red_3` sits at `outer_1`, two RED stacks at `outer_0`. -/
def c8_t7 : GameState := roll_dice c8_t6 1

/-- Evaluation of the first C8 deployment. -/
theorem c8_t2_eq :
    apply_move (roll_dice solo_add 1) (red_mirror (create_initial_hats .red 6))
      (some .cw) none = some c8_t2 :=
  rfl

/-- Evaluation of the second C8 deployment. -/
theorem c8_t4_eq :
    apply_move (roll_dice c8_t2 1) (red_mirror ((create_initial_hats .red 6).drop 1))
      (some .cw) none = some c8_t4 :=
  rfl

/-- Evaluation of the third C8 deployment. -/
theorem c8_t6_eq :
    apply_move (roll_dice c8_t4 2) (red_mirror ((create_initial_hats .red 6).drop 2))
      (some .cw) none = some c8_t6 :=
  rfl

/-- The C8 pre-move state is reachable. -/
theorem c8_t7_reachable : Reachable c8_t7 :=
  Reachable.rollStep _ 1
    (Reachable.moveStep _ _ _ _ _
      (Reachable.rollStep _ 2
        (Reachable.moveStep _ _ _ _ _
          (Reachable.rollStep _ 1
            (Reachable.moveStep _ _ _ _ _
              (Reachable.rollStep _ 1 solo_add_reachable (by decide) (by decide))
              c8_t2_eq)
            (by decide) (by decide))
          c8_t4_eq)
        (by decide) (by decide))
      c8_t6_eq)
    (by decide) (by decide)

/-- C8: moving `red_3` from `outer_1` onto `outer_0`, where two resident
stacks sit, makes the merge loop of `resolve_captures` read
`state.stacks[moving_stack_idx]` with its stale index after the first
removal shrank the list — an uncaught IndexError (modelled as `none`)
escapes `apply_move` instead of a no-op or an updated state. -/
theorem c8_apply_move_uncaught_index_error :
    Reachable c8_t7 ∧
    apply_move c8_t7 { node_id := .outer 1, pieces := [red_hat 3] } (some .ccw) none = none :=
  ⟨c8_t7_reachable, rfl⟩

/-- C3 trace: single player with `hats_per_player = 1`; the sole hat is
deployed, leaving the reserve-mirror stack empty. -/
def c3_u1 : GameState :=
  roll_dice (add_player (init_game "room" mboard { hats_per_player := 1 }) "p1" "Alice") 1

/-- State after deploying the only hat. -/
def c3_u2 : GameState :=
  (apply_move c3_u1 (red_mirror [red_hat 1]) (some .cw) none).getD c3_u1

/-- Evaluation of the C3 deployment. -/
theorem c3_u2_eq :
    apply_move c3_u1 (red_mirror [red_hat 1]) (some .cw) none = some c3_u2 :=
  rfl

/-- The C3 end state is reachable. -/
theorem c3_u2_reachable : Reachable c3_u2 :=
  Reachable.moveStep _ _ _ _ _
    (Reachable.rollStep _ 1
      (Reachable.addPlayerStep _ _ _ _ _
        (Reachable.initStep "room" mboard { hats_per_player := 1 }))
      (by decide) (by decide))
    c3_u2_eq

/-- C3 counterexample: after deploying a player's last hat, the empty
reserve-mirror `Stack` remains in `state.stacks` — a reachable state in
which a stack has no pieces (so no controller equal to a top piece's
color), contradicting the claim that an empty Stack never remains. -/
theorem c3_empty_mirror_stack_remains :
    Reachable c3_u2 ∧
    ({ node_id := NodeId.box .red, pieces := [] } : Stack) ∈ c3_u2.stacks' ∧
    ({ node_id := NodeId.box .red, pieces := [] } : Stack).pieces = [] :=
  ⟨c3_u2_reachable, by decide, rfl⟩

/-- Two-player game: Bob joins the single-player game as GREEN. -/
def duo_add : GameState := add_player solo_add "p2" "Bob"

/-- C5 trace, step 1 (RED rolls 3): deploy `red_1` to the GREEN-safe node
`outer_2`. -/
def c5_w1 : GameState :=
  (apply_move (roll_dice duo_add 3) (red_mirror (create_initial_hats .red 6))
    (some .cw) none).getD duo_add

/-- Step 2 (GREEN rolls 1): deploy `green_1` to `outer_4`. -/
def c5_w2 : GameState :=
  (apply_move (roll_dice c5_w1 1) (green_mirror (create_initial_hats .green 6))
    (some .cw) none).getD c5_w1

/-- Step 3 (RED rolls 2): deploy `red_2` to `outer_1`. -/
def c5_w3 : GameState :=
  (apply_move (roll_dice c5_w2 2) (red_mirror ((create_initial_hats .red 6).drop 1))
    (some .cw) none).getD c5_w2

/-- Step 4 (GREEN rolls 3): deploy `green_2` to its own safe node `outer_2`. -/
def c5_w4 : GameState :=
  (apply_move (roll_dice c5_w3 3) (green_mirror ((create_initial_hats .green 6).drop 1))
    (some .ccw) none).getD c5_w3

/-- Step 5 (RED rolls 3): deploy `red_3` to `outer_2`. -/
def c5_w5 : GameState :=
  (apply_move (roll_dice c5_w4 3) (red_mirror ((create_initial_hats .red 6).drop 2))
    (some .cw) none).getD c5_w4

/-- Step 6 (GREEN rolls 1): deploy `green_3` to `outer_4`. -/
def c5_w6 : GameState :=
  (apply_move (roll_dice c5_w5 1) (green_mirror ((create_initial_hats .green 6).drop 2))
    (some .cw) none).getD c5_w5

/-- Step 7: RED rolls 1, about to move `red_2` from `outer_1` onto `outer_2`. -/
def c5_w7pre : GameState := roll_dice c5_w6 1

/-- Result of the offending move. -/
def c5_w7 : GameState :=
  (apply_move c5_w7pre { node_id := .outer 1, pieces := [red_hat 2] } (some .cw) none).getD c5_w7pre

/-- Evaluation of C5 step 1. -/
theorem c5_w1_eq :
    apply_move (roll_dice duo_add 3) (red_mirror (create_initial_hats .red 6))
      (some .cw) none = some c5_w1 :=
  rfl

/-- Evaluation of C5 step 2. -/
theorem c5_w2_eq :
    apply_move (roll_dice c5_w1 1) (green_mirror (create_initial_hats .green 6))
      (some .cw) none = some c5_w2 :=
  rfl

/-- Evaluation of C5 step 3. -/
theorem c5_w3_eq :
    apply_move (roll_dice c5_w2 2) (red_mirror ((create_initial_hats .red 6).drop 1))
      (some .cw) none = some c5_w3 :=
  rfl

/-- Evaluation of C5 step 4. -/
theorem c5_w4_eq :
    apply_move (roll_dice c5_w3 3) (green_mirror ((create_initial_hats .green 6).drop 1))
      (some .ccw) none = some c5_w4 :=
  rfl

/-- Evaluation of C5 step 5. -/
theorem c5_w5_eq :
    apply_move (roll_dice c5_w4 3) (red_mirror ((create_initial_hats .red 6).drop 2))
      (some .cw) none = some c5_w5 :=
  rfl

/-- Evaluation of C5 step 6. -/
theorem c5_w6_eq :
    apply_move (roll_dice c5_w5 1) (green_mirror ((create_initial_hats .green 6).drop 2))
      (some .cw) none = some c5_w6 :=
  rfl

/-- Evaluation of the offending C5 move. -/
theorem c5_w7_eq :
    apply_move c5_w7pre { node_id := .outer 1, pieces := [red_hat 2] } (some .cw) none
      = some c5_w7 :=
  rfl

/-- The C5 pre-move state is reachable. -/
theorem c5_w7pre_reachable : Reachable c5_w7pre :=
  Reachable.rollStep _ 1
    (Reachable.moveStep _ _ _ _ _
      (Reachable.rollStep _ 1
        (Reachable.moveStep _ _ _ _ _
          (Reachable.rollStep _ 3
            (Reachable.moveStep _ _ _ _ _
              (Reachable.rollStep _ 3
                (Reachable.moveStep _ _ _ _ _
                  (Reachable.rollStep _ 2
                    (Reachable.moveStep _ _ _ _ _
                      (Reachable.rollStep _ 1
                        (Reachable.moveStep _ _ _ _ _
                          (Reachable.rollStep _ 3
                            (Reachable.addPlayerStep _ _ _ _ _ solo_add_reachable)
                            (by decide) (by decide))
                          c5_w1_eq)
                        (by decide) (by decide))
                      c5_w2_eq)
                    (by decide) (by decide))
                  c5_w3_eq)
                (by decide) (by decide))
              c5_w4_eq)
            (by decide) (by decide))
          c5_w5_eq)
        (by decide) (by decide))
      c5_w6_eq)
    (by decide) (by decide)

/-- C5: `outer_2` is the GREEN same-color-safe node and the GREEN stack
`[green_2]` occupies it in the reachable pre-move state.  Moving the RED
stack `[red_2]` onto `outer_2` (where two further RED stacks reside) makes
the merge loop's stale `moving_stack_idx` point at the protected stack after
the first removal: the protected GREEN stack is merged onto — its pieces
become `[red_3, green_2]` — even though capture resolution had excluded it
as safe. -/
theorem c5_protected_stack_merged_at_safe_node :
    Reachable c5_w7pre ∧
    (mboard.get_node (.outer 2)).map BoardNode.is_safe_color = some true ∧
    (mboard.get_node (.outer 2)).bind BoardNode.color = some PlayerColor.green ∧
    ({ node_id := .outer 2, pieces := [green_hat 2] } : Stack) ∈ c5_w7pre.stacks' ∧
    Stack.controller { node_id := .outer 2, pieces := [green_hat 2] } = some .green ∧
    apply_move c5_w7pre { node_id := .outer 1, pieces := [red_hat 2] } (some .cw) none
      = some c5_w7 ∧
    ({ node_id := .outer 2, pieces := [green_hat 2] } : Stack) ∉ c5_w7.stacks' ∧
    ({ node_id := .outer 2, pieces := [red_hat 3, green_hat 2] } : Stack) ∈ c5_w7.stacks' :=
  ⟨c5_w7pre_reachable, by decide, by decide, by decide, rfl, c5_w7_eq, by decide, by decide⟩

/-- Invariant of a single stack for the amended C3 claim: a stack not
sitting on a reserve (BOX) node has at least one piece. -/
def stack_ok (st : Stack) : Prop := st.node_id.isBoxId = false → st.pieces ≠ []

/-- The single-stack invariant, over a whole stack list. -/
def stacks_ok (l : List Stack) : Prop := ∀ st ∈ l, stack_ok st

/-- A stack on a reserve node satisfies the invariant vacuously. -/
theorem stack_ok_box {st : Stack} (h : st.node_id.isBoxId = true) : stack_ok st := by
  intro hb; rw [h] at hb; cases hb

/-- The invariant is preserved by list append. -/
theorem stacks_ok_append {l₁ l₂ : List Stack} (h₁ : stacks_ok l₁) (h₂ : stacks_ok l₂) :
    stacks_ok (l₁ ++ l₂) := by
  intro st hst
  rcases List.mem_append.mp hst with h | h
  · exact h₁ st h
  · exact h₂ st h

/-- The invariant is preserved by writing an invariant-satisfying stack. -/
theorem stacks_ok_set {l : List Stack} {v : Stack} {i : Nat}
    (h : stacks_ok l) (hv : stack_ok v) : stacks_ok (l.set i v) := by
  intro st hst
  rcases List.mem_or_eq_of_mem_set hst with hmem | rfl
  · exact h st hmem
  · exact hv

/-- The invariant is preserved by filtering. -/
theorem stacks_ok_filter {l : List Stack} {p : Stack → Bool} (h : stacks_ok l) :
    stacks_ok (l.filter p) := by
  intro st hst
  exact h st (List.mem_of_mem_filter hst)

/-- Specification of `find_idx`: a found index holds a matching element. -/
theorem find_idx_spec {α : Type} (p : α → Bool) :
    ∀ (l : List α) (i : Nat), find_idx p l = some i → ∃ x, l.get? i = some x ∧ p x = true := by
  intro l
  induction l with
  | nil => intro i h; cases h
  | cons a l ih =>
    intro i h
    unfold find_idx at h
    by_cases hp : p a
    · rw [if_pos hp] at h
      cases h
      exact ⟨a, rfl, hp⟩
    · rw [if_neg hp] at h
      rcases Option.map_eq_some'.mp h with ⟨j, hj, rfl⟩
      rcases ih j hj with ⟨x, hx, hpx⟩
      exact ⟨x, hx, hpx⟩

/-- Reading any reference from an invariant-satisfying object store yields
an invariant-satisfying stack (the out-of-range default sits on a box). -/
theorem heap_get_ok {heap : List Stack} (h : stacks_ok heap) (r : Nat) :
    stack_ok (heap_get heap r) := by
  unfold heap_get
  cases hg : heap.get? r with
  | none => exact stack_ok_box rfl
  | some v => exact h v (List.get?_mem hg)

/-- The merge loop only ever extends a stored stack's pieces or removes
references, so the object store keeps the invariant. -/
theorem capture_loop_heap_ok (turn : Nat) (pid : String) (m mr : Nat) :
    ∀ (others : List Nat) (heap : List Stack) (refs : List Nat) (logs : List ActionLog)
      (heap' : List Stack) (refs' : List Nat) (logs' : List ActionLog),
      capture_loop turn pid m mr others heap refs logs = some (heap', refs', logs') →
      stacks_ok heap → stacks_ok heap' := by
  intro others
  induction others with
  | nil =>
    intro heap refs logs heap' refs' logs' h hok
    unfold capture_loop at h
    cases h
    exact hok
  | cons o rest ih =>
    intro heap refs logs heap' refs' logs' h hok
    unfold capture_loop at h
    cases hg : refs.get? m with
    | none => rw [hg] at h; cases h
    | some r =>
      rw [hg] at h
      simp only at h
      cases hrm : remove_first_val
          (heap.set r { heap_get heap r with
            pieces := (heap_get heap o).pieces ++ (heap_get heap r).pieces }) refs
          (heap_get (heap.set r { heap_get heap r with
            pieces := (heap_get heap o).pieces ++ (heap_get heap r).pieces }) o) with
      | none => rw [hrm] at h; cases h
      | some refs₁ =>
        rw [hrm] at h
        refine ih _ _ _ _ _ _ h ?_
        refine stacks_ok_set hok ?_
        intro hnb
        have := heap_get_ok hok r hnb
        exact List.append_ne_nil_of_right_ne_nil _ this


/-- Capture resolution preserves the stack invariant. -/
theorem resolve_captures_ok {s : GameState} {m : Nat} {s' : GameState} {mv : Stack}
    (h : resolve_captures s m = some (s', mv)) (hok : stacks_ok s.stacks') :
    stacks_ok s'.stacks' := by
  unfold resolve_captures at h
  cases hg : s.stacks'.get? m with
  | none => rw [hg] at h; cases h; exact hok
  | some moving =>
    rw [hg] at h
    simp only at h
    split at h
    · cases h; exact hok
    · have hrun : ∀ (rem : List Nat),
          (match capture_loop s.turn_count (s.current_player_id.getD "") m m rem s.stacks'
              (List.range s.stacks'.length) s.logs with
            | none => none
            | some (heap', refs', logs') =>
              some ({ s with stacks' := refs'.map (heap_get heap'), logs := logs' },
                heap_get heap' m)) = some (s', mv) →
          stacks_ok s'.stacks' := by
        intro rem hmatch
        cases hcl : capture_loop s.turn_count (s.current_player_id.getD "") m m rem s.stacks'
            (List.range s.stacks'.length) s.logs with
        | none => rw [hcl] at hmatch; cases hmatch
        | some out =>
          rcases out with ⟨heap', refs', logs'⟩
          rw [hcl] at hmatch
          cases hmatch
          have hheap : stacks_ok heap' :=
            capture_loop_heap_ok _ _ _ _ _ _ _ _ _ _ _ hcl hok
          intro st hst
          rcases List.mem_map.mp hst with ⟨r, _, rfl⟩
          exact heap_get_ok hheap r
      split at h
      · -- destination node found on the board
        split at h
        · -- safe-color node
          split at h
          · cases h; exact hok
          · split at h
            · split at h
              · cases h; exact hok
              · exact hrun _ h
            · exact hrun _ h
        · exact hrun _ h
      · exact hrun _ h


/-- Relocating a stack whose source node is not a reserve preserves the
stack invariant (the moved stack keeps its nonempty pieces). -/
theorem move_stack_ok {s : GameState} {stack : Stack} {path : List NodeId}
    (hok : stacks_ok s.stacks') (hsrc : stack.node_id.isBoxId = false) :
    stacks_ok (move_stack_along_path s stack path).1.stacks' := by
  unfold move_stack_along_path
  dsimp only
  split
  · rename_i i hf
    split
    · rename_i st hget
      refine stacks_ok_set hok ?_
      intro _
      rcases find_idx_spec _ _ _ hf with ⟨st', hget', hp⟩
      rw [hget'] at hget
      cases hget
      have hprops := of_decide_eq_true hp
      have hnode : st.node_id = stack.node_id := hprops.1
      have hmem : st ∈ s.stacks' := List.get?_mem hget'
      have hb : st.node_id.isBoxId = false := by rw [hnode]; exact hsrc
      exact hok st hmem hb
    · exact hok
  · exact hok


/-- A freshly deployed single-piece stack satisfies the invariant. -/
theorem stack_ok_singleton {n : NodeId} {h : Hat} : stack_ok { node_id := n, pieces := [h] } := by
  intro _
  simp

/-- Deployment preserves the stack invariant: the refreshed reserve mirror
sits on a box node and the new stack holds one piece. -/
theorem deploy_ok {s : GameState} {stack : Stack} {dir : Direction}
    (hok : stacks_ok s.stacks') :
    stacks_ok (deploy_from_box s stack dir).stacks' := by
  have hsingle : ∀ (n : NodeId) (h : Hat),
      stacks_ok [{ node_id := n, pieces := [h] }] := by
    intro n h st hst
    rcases List.mem_singleton.mp hst with rfl
    exact stack_ok_singleton
  unfold deploy_from_box
  dsimp only
  repeat' split
  all_goals try dsimp only [GameState.add_log]
  all_goals
    first
      | exact hok
      | exact stacks_ok_set hok (stack_ok_box rfl)
      | exact stacks_ok_append hok (hsingle _ _)
      | exact stacks_ok_append (stacks_ok_set hok (stack_ok_box rfl)) (hsingle _ _)


/-- Reserve return only removes stacks, preserving the invariant. -/
theorem box_return_ok {s : GameState} {stack : Stack} (hok : stacks_ok s.stacks') :
    stacks_ok (resolve_box_return s stack).stacks' := by
  unfold resolve_box_return
  repeat' split
  all_goals try dsimp only [GameState.add_log]
  all_goals first
    | exact hok
    | exact stacks_ok_filter hok

/-- The win check never touches the stack list. -/
theorem check_game_over_stacks (s : GameState) : (check_game_over s).stacks' = s.stacks' := by
  unfold check_game_over determine_winner GameState.add_log
  repeat' split
  all_goals rfl

/-- A successful `apply_move` preserves the stack invariant. -/
theorem apply_move_ok {s : GameState} {stack : Stack} {dir : Option Direction}
    {tgt : Option NodeId} {s' : GameState}
    (h : apply_move s stack dir tgt = some s') (hok : stacks_ok s.stacks') :
    stacks_ok s'.stacks' := by
  unfold apply_move deepcopy at h
  dsimp only at h
  cases hd : s.dice_value with
  | none => rw [hd] at h; cases h; exact hok
  | some distance =>
    rw [hd] at h
    dsimp only at h
    by_cases hbox : stack.node_id.isBoxId = true
    · rw [if_pos hbox] at h
      cases h
      exact deploy_ok hok
    · rw [if_neg hbox] at h
      have hboxf : stack.node_id.isBoxId = false := by
        cases hb : stack.node_id.isBoxId
        · rfl
        · exact absurd hb hbox
      have hall : ∀ p, stacks_ok (move_stack_along_path s stack p).1.stacks' :=
        fun _ => move_stack_ok hok hboxf
      split at h
      · cases h; exact hok
      · split at h
        · rename_i st₁ heq
          cases h
          have h₂ := congrArg Prod.fst heq
          dsimp only at h₂
          rw [← h₂]
          exact hall _
        · rename_i st₁ i heq
          split at h
          · cases h
          · rename_i out st₂ mv heq₂
            cases h
            have h₁ : stacks_ok st₁.stacks' := by
              have h₂ := congrArg Prod.fst heq
              dsimp only at h₂
              rw [← h₂]
              exact hall _
            have h₂ : stacks_ok st₂.stacks' := resolve_captures_ok heq₂ h₁
            have h₃ : stacks_ok (resolve_box_return st₂ mv).stacks' := box_return_ok h₂
            have h₄ := check_game_over_stacks (resolve_box_return st₂ mv)
            intro st hst
            rw [show (advance_turn (check_game_over (resolve_box_return st₂ mv))).stacks'
                = (check_game_over (resolve_box_return st₂ mv)).stacks' from rfl, h₄] at hst
            exact h₃ st hst

/-- Adding a player only appends the reserve-mirror stack, preserving the
invariant. -/
theorem add_player_ok {s : GameState} {pid name : String} {bot : Bool} {rand : Nat}
    (hok : stacks_ok s.stacks') : stacks_ok (add_player s pid name bot rand).stacks' := by
  unfold add_player
  dsimp only
  repeat' split
  all_goals first
    | exact hok
    | exact stacks_ok_append hok (fun st hst => by
        rcases List.mem_singleton.mp hst with rfl
        exact stack_ok_box rfl)

/-- Every reachable state satisfies the stack invariant. -/
theorem reachable_stacks_ok {s : GameState} (h : Reachable s) : stacks_ok s.stacks' := by
  induction h with
  | initStep room board config => intro st hst; cases hst
  | addPlayerStep s pid name bot rand _ ih => exact add_player_ok ih
  | rollStep s v _ _ _ ih => exact ih
  | advanceStep s _ ih => exact ih
  | moveStep s stack dir tgt s' _ hm ih => exact apply_move_ok hm ih

/-- The state after the first deployment of the C1 trace is reachable. -/
theorem c1_s3_reachable : Reachable c1_s3 :=
  Reachable.moveStep _ _ _ _ _
    (Reachable.rollStep _ 1 solo_add_reachable (by decide) (by decide)) c1_s3_eq

/-- C3 (amended): in every reachable state, every stack located on a
non-reserve node contains at least one piece and its controller is the color
of its last (top) piece; only the reserve-display stacks sitting on BOX
nodes may be empty (and such an empty mirror does remain after a player's
last hat deploys). -/
theorem c3_nonreserve_stack_invariant (s : GameState) (h : Reachable s) :
    ∀ st ∈ s.stacks', st.node_id.isBoxId = false →
      st.pieces ≠ [] ∧ st.controller = st.pieces.getLast?.map Hat.color :=
  fun st hst hnb => ⟨reachable_stacks_ok h st hst hnb, rfl⟩

/-- Witness: the deployed stack at `outer_0` in the reachable state `c1_s3`
is nonempty and controlled by its top piece's color. -/
theorem c3_nonreserve_stack_invariant_witness :
    ({ node_id := .outer 0, pieces := [red_hat 1] } : Stack).pieces ≠ [] ∧
    Stack.controller { node_id := .outer 0, pieces := [red_hat 1] }
      = ([red_hat 1].getLast?).map Hat.color :=
  c3_nonreserve_stack_invariant c1_s3 c1_s3_reachable
    { node_id := .outer 0, pieces := [red_hat 1] } (by decide) (by decide)

theorem mboard_get_outer : ∀ k, k < 48 → mboard.get_node (.outer k) = some (mb_outer_node k) := by
  decide

/-- Both ring successors of a ring node are among its neighbors on the
modelled board. -/
theorem mboard_ring_neighbors :
    ∀ k, k < 48 →
      NodeId.outer ((k + 1) % 48) ∈ (mb_outer_node k).neighbors ∧
      NodeId.outer ((k + 47) % 48) ∈ (mb_outer_node k).neighbors := by
  decide

/-- One-step unfolding of the ring walk. -/
theorem ring_walk_succ (dir : Direction) (n k : Nat) (pre : List NodeId) :
    ring_walk dir (n + 1) k pre =
      ring_walk dir n (if dir = Direction.cw then (k + 1) % 48 else (k + 47) % 48)
        (pre ++ [NodeId.outer (if dir = Direction.cw then (k + 1) % 48 else (k + 47) % 48)]) := by
  rw [ring_walk]

/-- The plain ring walk in the requested direction is always among the
explorer's paths on the modelled board: at a JUNCTION node the
ring-successor continuation is one of the offered branches. -/
theorem ring_walk_mem_explore (dir : Direction) :
    ∀ (n k : Nat) (pre : List NodeId), k < 48 →
      ring_walk dir n k pre ∈ explore_paths mboard (some dir) n (.outer k) pre := by
  intro n
  induction n with
  | zero =>
    intro k pre _
    rw [ring_walk, explore_paths]
    exact List.mem_singleton.mpr rfl
  | succ n ih =>
    intro k pre hk
    by_cases hdir : dir = Direction.cw
    · subst hdir
      have hk' : (k + 1) % 48 < 48 := Nat.mod_lt _ (by decide)
      rw [ring_walk_succ]
      simp only [if_pos rfl, if_true, ite_true]
      rw [explore_paths, mboard_get_outer k hk]
      dsimp only
      split
      · refine List.mem_flatMap.mpr ⟨_, (mboard_ring_neighbors k hk).1, ?_⟩
        rw [mboard_get_outer _ hk']
        dsimp only
        rw [if_pos ⟨rfl, rfl⟩]
        dsimp only [NodeId.outerNum?]
        simp only [if_pos rfl, if_true, ite_true]
        exact ih _ _ hk'
      · rw [if_pos ⟨rfl, rfl⟩]
        dsimp only [NodeId.outerNum?]
        simp only [if_pos rfl, if_true, ite_true]
        rw [mboard_get_outer _ hk']
        dsimp only
        exact ih _ _ hk'
    · have hk' : (k + 47) % 48 < 48 := Nat.mod_lt _ (by decide)
      have hdir2 : ¬ (some dir = some Direction.cw) :=
        fun h => hdir (Option.some_injective _ h)
      rw [ring_walk_succ]
      simp only [if_neg hdir]
      rw [explore_paths, mboard_get_outer k hk]
      dsimp only
      split
      · refine List.mem_flatMap.mpr ⟨_, (mboard_ring_neighbors k hk).2, ?_⟩
        rw [mboard_get_outer _ hk']
        dsimp only
        rw [if_pos ⟨rfl, rfl⟩]
        dsimp only [NodeId.outerNum?]
        simp only [if_neg hdir2, if_pos rfl, if_true, ite_true]
        exact ih _ _ hk'
      · rw [if_pos ⟨rfl, rfl⟩]
        dsimp only [NodeId.outerNum?]
        rw [mboard_get_outer _ hk']
        dsimp only
        exact ih _ _ hk'

/-- Membership in the embedded `set.add`. -/
theorem set_add_mem (l : List NodeId) (x a : NodeId) : a ∈ set_add l x ↔ a ∈ l ∨ a = x := by
  unfold set_add
  by_cases hx : x ∈ l
  · rw [if_pos hx]
    constructor
    · exact Or.inl
    · rintro (h | rfl)
      · exact h
      · exact hx
  · rw [if_neg hx]
    simp

/-- A ring walk appends one node per step. -/
theorem ring_walk_length (dir : Direction) :
    ∀ (n k : Nat) (pre : List NodeId), (ring_walk dir n k pre).length = pre.length + n := by
  intro n
  induction n with
  | zero => intro k pre; rfl
  | succ n ih =>
    intro k pre
    rw [ring_walk, ih]
    simp
    omega

/-- A nonempty ring walk ends at some ring node (index below 48). -/
theorem ring_walk_last (dir : Direction) :
    ∀ (n k : Nat) (pre : List NodeId),
      ∃ j, j < 48 ∧ (ring_walk dir (n + 1) k pre).getLast? = some (.outer j) := by
  intro n
  induction n with
  | zero =>
    intro k pre
    refine ⟨if dir = Direction.cw then (k + 1) % 48 else (k + 47) % 48, ?_, ?_⟩
    · split <;> exact Nat.mod_lt _ (by decide)
    · rw [ring_walk, ring_walk]
      exact List.getLast?_concat _
  | succ n ih =>
    intro k pre
    rw [ring_walk]
    exact ih _ _



/-- Membership in the deployment fold over one direction's path list: a node
is collected exactly when some path ends at it. -/
theorem deploy_fold_mem_aux :
    ∀ (ps : List (List NodeId)) (init : List NodeId) (x : NodeId),
      (x ∈ ps.foldl (fun dests path =>
          match path.getLast? with
          | some dest => set_add dests dest
          | none => dests) init) ↔
        x ∈ init ∨ ∃ p ∈ ps, p.getLast? = some x := by
  intro ps
  induction ps with
  | nil => intro init x; simp
  | cons p ps ih =>
    intro init x
    rw [List.foldl_cons, ih]
    cases hl : p.getLast? with
    | none =>
      dsimp only
      constructor
      · rintro (h | ⟨q, hq, hlq⟩)
        · exact Or.inl h
        · exact Or.inr ⟨q, List.mem_cons_of_mem _ hq, hlq⟩
      · rintro (h | ⟨q, hq, hlq⟩)
        · exact Or.inl h
        · rcases List.mem_cons.mp hq with rfl | hq
          · rw [hl] at hlq; cases hlq
          · exact Or.inr ⟨q, hq, hlq⟩
    | some dest =>
      dsimp only
      rw [set_add_mem]
      constructor
      · rintro ((h | rfl) | ⟨q, hq, hlq⟩)
        · exact Or.inl h
        · exact Or.inr ⟨p, List.mem_cons_self _ _, hl⟩
        · exact Or.inr ⟨q, List.mem_cons_of_mem _ hq, hlq⟩
      · rintro (h | ⟨q, hq, hlq⟩)
        · exact Or.inl (Or.inl h)
        · rcases List.mem_cons.mp hq with rfl | hq
          · rw [hl] at hlq
            exact Or.inl (Or.inr (Option.some_injective _ hlq).symm)
          · exact Or.inr ⟨q, hq, hlq⟩

/-- Membership in the full deployment fold over a direction list. -/
theorem deploy_fold_mem (f : Direction → List (List NodeId)) :
    ∀ (dirs : List Direction) (init : List NodeId) (x : NodeId),
      (x ∈ dirs.foldl (fun dests dir' =>
          (f dir').foldl (fun dests path =>
            match path.getLast? with
            | some dest => set_add dests dest
            | none => dests) dests) init) ↔
        x ∈ init ∨ ∃ dir' ∈ dirs, ∃ p ∈ f dir', p.getLast? = some x := by
  intro dirs
  induction dirs with
  | nil => intro init x; simp
  | cons d dirs ih =>
    intro init x
    rw [List.foldl_cons, ih, deploy_fold_mem_aux]
    constructor
    · rintro ((h | ⟨p, hp, hl⟩) | ⟨d', hd', p, hp, hl⟩)
      · exact Or.inl h
      · exact Or.inr ⟨d, List.mem_cons_self _ _, p, hp, hl⟩
      · exact Or.inr ⟨d', List.mem_cons_of_mem _ hd', p, hp, hl⟩
    · rintro (h | ⟨d', hd', p, hp, hl⟩)
      · exact Or.inl (Or.inl h)
      · rcases List.mem_cons.mp hd' with rfl | hd'
        · exact Or.inl (Or.inr ⟨p, hp, hl⟩)
        · exact Or.inr ⟨d', hd', p, hp, hl⟩

/-- The chosen direction's ring walk is among the explorer's path lists. -/
theorem ring_walk_mem_gapp (dir : Direction) (k n : Nat) (hk : k < 48) :
    ring_walk dir (n + 1) k [.outer k]
      ∈ get_all_possible_paths mboard (.outer k) (n + 1) (some dir) := by
  rw [get_all_possible_paths, if_neg (Nat.succ_ne_zero n)]
  exact ring_walk_mem_explore dir (n + 1) k _ hk

/-- Entry node of each color's reserve on the modelled board. -/
def mentry (c : PlayerColor) : NodeId := NodeId.outer (box_entry c)

/-- Entry indices are ring indices. -/
theorem box_entry_lt (c : PlayerColor) : box_entry c < 48 := by
  cases c <;> decide

/-- `find_deployment_node` on the modelled board yields the entry node. -/
theorem find_deployment_mboard (c : PlayerColor) :
    find_deployment_node mboard c = some (mentry c) := by
  cases c <;> rfl

/-- From a ring node with a direction, `calculate_path` is the pure ring
walk (the source's ring branch never consults the board). -/
theorem calculate_path_ring (b : Board) (dir : Direction) (k n : Nat) :
    calculate_path b (.outer k) (n + 1) (some dir) = ring_walk dir (n + 1) k [.outer k] := by
  unfold calculate_path
  rw [if_neg (Nat.succ_ne_zero n)]
  rfl

/-- Evaluation of `deploy_from_box`: with a current player holding hats and
a deployment node found, the newly appended stack holds the popped hat and
sits on the entry node for dice 1, otherwise at the end of the
`calculate_path` walk of `dice - 1` steps. -/
theorem deploy_last (s : GameState) (stack : Stack) (dir : Direction)
    (pid : String) (p : Player) (h₀ : Hat) (rest : List Hat) (d : Nat) (entry : NodeId)
    (hpid : s.current_player_id = some pid)
    (hp : s.current_player = some p)
    (hd : s.dice_value = some d)
    (hhats : p.box_hats = h₀ :: rest)
    (hf : find_deployment_node s.board p.color = some entry) :
    (deploy_from_box s stack dir).stacks'.getLast? =
      some { node_id := (if d = 1 then entry
               else (calculate_path s.board entry (d - 1) (some dir)).getLast?.getD entry),
             pieces := [h₀] } := by
  unfold deploy_from_box
  rw [hpid, hp, hd]
  dsimp only
  rw [hhats]
  dsimp only
  cases hmi : find_idx (fun st => decide (st.node_id = NodeId.box p.color)) s.stacks' with
  | none =>
    dsimp only
    rw [hf]
    dsimp only [GameState.add_log]
    rw [List.getLast?_concat]
  | some i =>
    dsimp only
    rw [hf]
    dsimp only [GameState.add_log]
    rw [List.getLast?_concat]



/-- C7: deployment destinations and placement on the modelled board.  With a
roll of exactly 1 the legal deployment destinations are exactly the
singleton of the reserve's fixed entry node and the deployed piece is placed
there; with a roll of 2 or more the legal destinations are exactly the
endpoints of the `(roll - 1)`-step explorer paths from the entry node in
either ring direction, and the deployed piece is placed at the endpoint of
the chosen direction's walk, which is one of those legal destinations. -/
theorem c7_deployment_destinations (s : GameState) (stack : Stack) (d : Nat)
    (pid : String) (p : Player) (h₀ : Hat) (rest : List Hat) (dir : Direction)
    (hb : s.board = mboard)
    (hd : s.dice_value = some d)
    (hn : stack.node_id.isBoxId = true)
    (hpid : s.current_player_id = some pid)
    (hp : s.current_player = some p)
    (hhats : p.box_hats = h₀ :: rest)
    (hdir : dir = Direction.cw ∨ dir = Direction.ccw) :
    (d = 1 →
      get_legal_destination_nodes s stack = [mentry p.color] ∧
      (deploy_from_box s stack dir).stacks'.getLast?
        = some { node_id := mentry p.color, pieces := [h₀] }) ∧
    (2 ≤ d →
      (∀ x, x ∈ get_legal_destination_nodes s stack ↔
        ∃ dir' ∈ [Direction.cw, Direction.ccw],
          ∃ path ∈ get_all_possible_paths mboard (mentry p.color) (d - 1) (some dir'),
            path.getLast? = some x) ∧
      ∃ e, (deploy_from_box s stack dir).stacks'.getLast?
              = some { node_id := e, pieces := [h₀] } ∧
            e ∈ get_legal_destination_nodes s stack ∧
            ∃ path ∈ get_all_possible_paths mboard (mentry p.color) (d - 1) (some dir),
              path.getLast? = some e) := by
  have hf : find_deployment_node s.board p.color = some (mentry p.color) := by
    rw [hb]; exact find_deployment_mboard p.color
  have hdests : get_legal_destination_nodes s stack =
      (if d = 1 then [mentry p.color]
       else
        [Direction.cw, Direction.ccw].foldl (fun dests dir' =>
          (get_all_possible_paths mboard (mentry p.color) (d - 1) (some dir')).foldl
            (fun dests path =>
              match path.getLast? with
              | some dest => set_add dests dest
              | none => dests)
            dests)
          []) := by
    unfold get_legal_destination_nodes
    rw [hd]
    dsimp only
    rw [if_pos hn, hp]
    dsimp only
    rw [hf]
    dsimp only
    rw [hb]
  constructor
  · intro hd1
    subst hd1
    constructor
    · rw [hdests, if_pos rfl]
    · rw [deploy_last s stack dir pid p h₀ rest 1 (mentry p.color) hpid hp hd hhats hf]
      rw [if_pos rfl]
  · intro hd2
    have hne1 : d ≠ 1 := by omega
    obtain ⟨n, hn2⟩ : ∃ n, d - 1 = n + 1 := ⟨d - 2, by omega⟩
    have he48 : box_entry p.color < 48 := box_entry_lt p.color
    have hfold : ∀ x, x ∈ get_legal_destination_nodes s stack ↔
        ∃ dir' ∈ [Direction.cw, Direction.ccw],
          ∃ path ∈ get_all_possible_paths mboard (mentry p.color) (d - 1) (some dir'),
            path.getLast? = some x := by
      intro x
      rw [hdests, if_neg hne1]
      rw [deploy_fold_mem
        (fun dir' => get_all_possible_paths mboard (mentry p.color) (d - 1) (some dir'))]
      simp
    refine ⟨hfold, ?_⟩
    rcases ring_walk_last dir n (box_entry p.color) [.outer (box_entry p.color)] with ⟨j, hj, hlast⟩
    have hdl := deploy_last s stack dir pid p h₀ rest d (mentry p.color) hpid hp hd hhats hf
    rw [if_neg hne1] at hdl
    have hwalkmem : ring_walk dir (n + 1) (box_entry p.color) [.outer (box_entry p.color)]
        ∈ get_all_possible_paths mboard (mentry p.color) (d - 1) (some dir) := by
      rw [hn2]
      exact ring_walk_mem_gapp dir (box_entry p.color) n he48
    refine ⟨.outer j, ?_, ?_, ?_⟩
    · rw [hdl, hb]
      unfold mentry
      rw [hn2, calculate_path_ring, hlast]
      rfl
    · rw [hfold]
      refine ⟨dir, ?_, _, hwalkmem, hlast⟩
      rcases hdir with rfl | rfl
      · simp
      · simp
    · exact ⟨_, hwalkmem, hlast⟩

/-- The RED player of the concrete C7 input. -/
def c7_example_player : Player :=
  { id := "p1", name := "Alice", color := .red, box_hats := create_initial_hats .red 6 }

/-- Concrete input for the C7 theorem: RED to deploy with dice 1. -/
def c7_example_state : GameState :=
  { room_id := "r", config := {}, board := mboard,
    players := [("p1", c7_example_player)],
    turn_order := ["p1"], current_turn_index := 0, dice_value := some 1 }

/-- Witness for C7 at the concrete input (dice 1). -/
theorem c7_deployment_destinations_witness :
    (1 = 1 →
      get_legal_destination_nodes c7_example_state (red_mirror (create_initial_hats .red 6))
        = [mentry PlayerColor.red] ∧
      (deploy_from_box c7_example_state (red_mirror (create_initial_hats .red 6))
          Direction.cw).stacks'.getLast?
        = some { node_id := mentry PlayerColor.red, pieces := [red_hat 1] }) ∧
    (2 ≤ 1 →
      (∀ x, x ∈ get_legal_destination_nodes c7_example_state
          (red_mirror (create_initial_hats .red 6)) ↔
        ∃ dir' ∈ [Direction.cw, Direction.ccw],
          ∃ path ∈ get_all_possible_paths mboard (mentry PlayerColor.red) (1 - 1) (some dir'),
            path.getLast? = some x) ∧
      ∃ e, (deploy_from_box c7_example_state (red_mirror (create_initial_hats .red 6))
              Direction.cw).stacks'.getLast?
              = some { node_id := e, pieces := [red_hat 1] } ∧
            e ∈ get_legal_destination_nodes c7_example_state
                (red_mirror (create_initial_hats .red 6)) ∧
            ∃ path ∈ get_all_possible_paths mboard (mentry PlayerColor.red) (1 - 1)
                (some Direction.cw),
              path.getLast? = some e) :=
  c7_deployment_destinations c7_example_state (red_mirror (create_initial_hats .red 6)) 1
    "p1" c7_example_player (red_hat 1)
    [red_hat 2, red_hat 3, red_hat 4, red_hat 5, red_hat 6] Direction.cw
    rfl rfl rfl rfl rfl rfl (Or.inl rfl)

/-! State-passing views for the frame-effect claims.  The legal-move queries
of the source contain no assignment to `state`, so their embedding threads
the state through unchanged; `apply_move` returns a fresh value computed
from `deepcopy(state)` and never writes the caller's binding, while
`roll_dice` and `advance_turn` mutate the caller's state object in place
(modelled as replacing the stored state of the caller's frame). -/

/-- Call of `get_legal_stacks` with the state threaded through. -/
def get_legal_stacks_call (s : GameState) (player_id : String) :
    List Stack × GameState :=
  (get_legal_stacks s player_id, s)

/-- Call of `get_legal_destination_nodes` with the state threaded through. -/
def get_legal_destination_nodes_call (s : GameState) (stack : Stack) :
    List NodeId × GameState :=
  (get_legal_destination_nodes s stack, s)

/-- C9: both legal-move queries are read-only — the state after either call
is the very state passed in; in particular the dice value, phase, stack
list and player records (with their reserves) are unchanged. -/
theorem c9_queries_read_only (s : GameState) (player_id : String) (stack : Stack) :
    (get_legal_stacks_call s player_id).2 = s ∧
    (get_legal_destination_nodes_call s stack).2 = s ∧
    (get_legal_stacks_call s player_id).2.dice_value = s.dice_value ∧
    (get_legal_stacks_call s player_id).2.phase = s.phase ∧
    (get_legal_stacks_call s player_id).2.stacks' = s.stacks' ∧
    (get_legal_stacks_call s player_id).2.players = s.players ∧
    (get_legal_destination_nodes_call s stack).2.dice_value = s.dice_value ∧
    (get_legal_destination_nodes_call s stack).2.phase = s.phase ∧
    (get_legal_destination_nodes_call s stack).2.stacks' = s.stacks' ∧
    (get_legal_destination_nodes_call s stack).2.players = s.players :=
  ⟨rfl, rfl, rfl, rfl, rfl, rfl, rfl, rfl, rfl, rfl⟩

/-- The caller's view of the one `GameState` variable it holds. -/
structure CallerFrame where
  state : GameState

/-- Calling `apply_move`: the result is a fresh value and the caller's
stored state is untouched. -/
def apply_move_call (f : CallerFrame) (stack : Stack)
    (dir : Option Direction) (tgt : Option NodeId) :
    Option GameState × CallerFrame :=
  (apply_move f.state stack dir tgt, f)

/-- Calling `roll_dice`: the source mutates the passed state in place (and
returns the drawn value), so the caller's stored state is replaced. -/
def roll_dice_call (f : CallerFrame) (value : Nat) : Nat × CallerFrame :=
  (value, { state := roll_dice f.state value })

/-- Calling `advance_turn`: in-place mutation of the caller's state. -/
def advance_turn_call (f : CallerFrame) : CallerFrame :=
  { state := advance_turn f.state }

/-- C10: `apply_move` never mutates the caller's state — after the call the
caller's frame (and so the input state value) is exactly what it was, and
the returned state is computed from `deepcopy` of the input — whereas
`roll_dice` and `advance_turn` update the caller's state in place (the
stored state afterwards shows the new dice value, respectively the reset
phase, cleared dice and incremented turn counter).  Object identity of the
Python copy is below value semantics; what is provable is that the input
binding is preserved by `apply_move` and replaced by the in-place ops. -/
theorem c10_apply_move_preserves_input (f : CallerFrame) (stack : Stack)
    (dir : Option Direction) (tgt : Option NodeId) (v : Nat) :
    (apply_move_call f stack dir tgt).2 = f ∧
    (apply_move_call f stack dir tgt).2.state = f.state ∧
    (apply_move_call f stack dir tgt).1 = apply_move (deepcopy f.state) stack dir tgt ∧
    ((roll_dice_call f v).2).state.dice_value = some v ∧
    (advance_turn_call f).state.phase = GamePhase.roll ∧
    (advance_turn_call f).state.dice_value = none ∧
    (advance_turn_call f).state.turn_count = f.state.turn_count + 1 :=
  ⟨rfl, rfl, rfl, rfl, rfl, rfl, rfl⟩

end Coppit
